import Mathlib

/-!
Verification of `src/wandb/board/ui/src/components/TabbedViews.js`.

The component renders a tab strip with an edit mode.  We embed its
`render` method and its event handlers shallowly:

* JS object lookup `views[viewId]` becomes a function `String → Option View`;
  the unguarded property access `views[viewId].name` (which throws a
  `TypeError` when the lookup yields `undefined`) is modelled by making pane
  construction, and hence rendering, return `Option` — `none` is the crash.
* `_.indexOf` (lodash) returns the first index of the element or `-1`,
  embedded as `jsIndexOf : List String → String → Int`.
* Callbacks into the parent (`updateViews`, `setActiveView`, `addView`)
  become an explicit list of emitted `Effect`s; `this.setState` on the
  single `editMode` boolean becomes the returned new `editMode`.
* `JSON.stringify` is an external builtin applied to the opaque prop
  `viewState`; it is modelled as an injected serialization function
  `stringify : V → String` over the opaque type `V`.
* The JS truthiness test in `tabs[activeIndex] || activeIndex`:
  `undefined` (out of range) and the empty string are falsy, every other
  string is truthy.
-/

namespace TabbedViews

/-- A view record as used by the component: only its `name` is read. -/
structure View where
  name : String
deriving Repr, DecidableEq

/-- The props of the `TabbedViews` component.  `V` is the opaque type of
`viewState`; `B` is the type of rendered pane bodies (the result of
`renderView`). -/
structure Props (V B : Type) where
  tabs : List String
  views : String → Option View
  activeView : Option String
  blank : Bool
  viewType : String
  isModified : Bool
  viewState : V
  renderView : String → Bool → B

/-- One pane descriptor handed to the `Tab` widget: either a real tab's
pane (menu key, menu label, rendered body) or the synthetic "+" add-tab
menu item pushed in edit mode. -/
inductive Pane (B : Type) where
  | view (key : String) (label : String) (body : B)
  | addTab
deriving Repr, DecidableEq

/-- An argument passed to `setActiveView`: either a tab id (string) or,
via the `||` fallback, the raw numeric index. -/
inductive TabArg where
  | id (s : String)
  | index (n : Nat)
deriving Repr, DecidableEq

/-- A call emitted to a parent-supplied callback prop. -/
inductive Effect where
  | updateViews (payload : String)
  | setActiveView (viewType : String) (arg : TabArg)
  | addView (viewType : String) (name : String) (init : List String)
deriving Repr, DecidableEq

/-- `this.props.tabs.map(viewId => ({menuItem: ..., render: ...}))`:
one pane per tab id, in order.  The menu label is
`this.props.views[viewId].name + ' '` and the body is
`this.props.renderView(viewId, this.state.editMode)`.  A tab id absent
from `views` makes the unguarded `.name` access throw: modelled as
`none`. -/
def buildRealPanes {V B : Type} (p : Props V B) (editMode : Bool) :
    List String → Option (List (Pane B))
  | [] => some []
  | viewId :: rest =>
    match p.views viewId with
    | none => none
    | some v =>
      (buildRealPanes p editMode rest).map
        (fun l => Pane.view viewId (v.name ++ " ") (p.renderView viewId editMode) :: l)

/-- The real panes built from `p.tabs`. -/
def realPanes {V B : Type} (p : Props V B) (editMode : Bool) : Option (List (Pane B)) :=
  buildRealPanes p editMode p.tabs

/-- The full pane list: in edit mode, `panes.push({menuItem: <"+" item>})`
appends the synthetic add-tab pane after all real panes. -/
def panes {V B : Type} (p : Props V B) (editMode : Bool) : Option (List (Pane B)) :=
  (realPanes p editMode).map (fun l => if editMode then l ++ [Pane.addTab] else l)

/-- lodash `_.indexOf(l, v)`: the first index of `v` in `l`, or `-1` when
`v` does not occur. -/
def jsIndexOf : List String → String → Int
  | [], _ => -1
  | t :: ts, v =>
    if t = v then 0
    else
      let r := jsIndexOf ts v
      if r = -1 then -1 else r + 1

/-- The computed active index:
`activeIndex = 0; if (!_.isNil(activeView)) { activeIndex =
_.indexOf(tabs, activeView); if (activeIndex === -1) activeIndex = 0; }`. -/
def computeActiveIndex (tabs : List String) (activeView : Option String) : Int :=
  match activeView with
  | none => 0
  | some v =>
    let i := jsIndexOf tabs v
    if i = -1 then 0 else i

/-- The rendered tab strip: the pane list plus the active index. -/
structure TabStrip (B : Type) where
  panes : List (Pane B)
  activeIndex : Int
deriving Repr, DecidableEq

/-- The rendered output of one `render()` call.
`saveDisabled = some d` means the green "Save Changes" button is rendered
with `disabled := d`; `none` means it is absent.  `tabStrip = none` means
the `<Tab>` element is suppressed. -/
structure Rendered (B : Type) where
  saveDisabled : Option Bool
  toggleContent : String
  toggleIcon : String
  tabStrip : Option (TabStrip B)
deriving Repr, DecidableEq

/-- The `render()` method.  Pane construction runs before any conditional,
so a `views` lookup failure crashes the whole render (`none`) even when
the tab strip would have been suppressed.  The Save button exists only in
edit mode and is disabled when `!isModified`; the toggle button swaps
label and icon with the mode; the tab strip renders unless
`blank && !editMode`. -/
def render {V B : Type} (p : Props V B) (editMode : Bool) : Option (Rendered B) :=
  (panes p editMode).map (fun ps =>
    { saveDisabled := if editMode then some (!p.isModified) else none
      toggleContent := if editMode then "View Charts" else "Edit Charts"
      toggleIcon := if editMode then "unhide" else "configure"
      tabStrip :=
        if !p.blank || editMode then
          some { panes := ps, activeIndex := computeActiveIndex p.tabs p.activeView }
        else none })

/-- The Save button's `onClick` handler:
`this.setState({editMode: false}); this.props.updateViews(JSON.stringify(this.props.viewState))`. -/
def saveHandler {V B : Type} (stringify : V → String) (p : Props V B) :
    Bool × List Effect :=
  (false, [Effect.updateViews (stringify p.viewState)])

/-- Clicking the Save button.  The button is rendered with
`disabled := !isModified`, and a disabled `semantic-ui-react` button
swallows the click, so the handler only runs when `isModified`. -/
def clickSave {V B : Type} (stringify : V → String) (p : Props V B)
    (editMode : Bool) : Bool × List Effect :=
  if p.isModified then saveHandler stringify p else (editMode, [])

/-- Clicking the mode-toggle button:
`onClick={() => this.setState({editMode: !this.state.editMode})}` —
no callback prop is invoked. -/
def clickToggle (editMode : Bool) : Bool × List Effect :=
  (!editMode, [])

/-- Clicking the "+" menu item:
`onClick={() => this.props.addView(this.props.viewType, 'New View', [])}`. -/
def clickAdd {V B : Type} (p : Props V B) : List Effect :=
  [Effect.addView p.viewType "New View" []]

/-- `this.props.tabs[activeIndex] || activeIndex`: the tab id at the new
index when that id is truthy (in range and non-empty), otherwise the raw
index (`undefined` out of range, and the empty string, are both falsy). -/
def tabChangeArg (tabs : List String) (i : Nat) : TabArg :=
  match tabs[i]? with
  | some s => if s = "" then TabArg.index i else TabArg.id s
  | none => TabArg.index i

/-- The `onTabChange` handler: calls
`setActiveView(viewType, tabs[activeIndex] || activeIndex)` with the new
index reported by the gesture. -/
def tabChange {V B : Type} (p : Props V B) (i : Nat) : List Effect :=
  [Effect.setActiveView p.viewType (tabChangeArg p.tabs i)]

/-! ### Helper lemmas -/

/-- `jsIndexOf` agrees with the mathematical first-occurrence index on
members. -/
lemma jsIndexOf_eq_of_mem (v : String) :
    ∀ l : List String, v ∈ l → jsIndexOf l v = (List.indexOf v l : Int) := by
  intro l
  induction l with
  | nil => intro h; cases h
  | cons t ts ih =>
    intro h
    by_cases ht : t = v
    · subst ht
      simp [jsIndexOf, List.indexOf_cons_self]
    · have hv : v ∈ ts := by
        rcases List.mem_cons.mp h with h1 | h1
        · exact absurd h1.symm ht
        · exact h1
      have hts := ih hv
      have hlt : List.indexOf v ts < ts.length := List.indexOf_lt_length.mpr hv
      have hne : jsIndexOf ts v ≠ -1 := by
        rw [hts]
        omega
      have htv : t ≠ v := ht
      simp only [jsIndexOf, ht, if_false, hne, if_neg hne]
      rw [List.indexOf_cons_ne ts htv, hts]
      push_cast
      ring

/-- `jsIndexOf` returns `-1` exactly on non-members. -/
lemma jsIndexOf_eq_neg_one_of_not_mem (v : String) :
    ∀ l : List String, v ∉ l → jsIndexOf l v = -1 := by
  intro l
  induction l with
  | nil => intro _; rfl
  | cons t ts ih =>
    intro h
    have ht : t ≠ v := fun h1 => h (h1 ▸ List.mem_cons_self t ts)
    have hts : v ∉ ts := fun h1 => h (List.mem_cons_of_mem t h1)
    simp [jsIndexOf, ht, ih hts]

/-- The synthetic add-tab pane never occurs among the real panes. -/
lemma addTab_not_mem_buildRealPanes {V B : Type} (p : Props V B) (em : Bool) :
    ∀ (ts : List String) (l : List (Pane B)),
      buildRealPanes p em ts = some l → Pane.addTab ∉ l := by
  intro ts
  induction ts with
  | nil =>
    intro l h
    simp only [buildRealPanes] at h
    injection h with h
    subst h
    simp
  | cons viewId rest ih =>
    intro l h
    simp only [buildRealPanes] at h
    cases hv : p.views viewId with
    | none => rw [hv] at h; cases h
    | some v =>
      rw [hv] at h
      cases hr : buildRealPanes p em rest with
      | none => rw [hr] at h; cases h
      | some l' =>
        rw [hr] at h
        simp only [Option.map_some'] at h
        injection h with h
        subst h
        intro hmem
        rcases List.mem_cons.mp hmem with h1 | h1
        · cases h1
        · exact ih l' hr h1

/-- A missing `views` entry for a listed tab makes real-pane construction
fail. -/
lemma buildRealPanes_eq_none {V B : Type} (p : Props V B) (em : Bool) :
    ∀ ts : List String, ∀ viewId ∈ ts, p.views viewId = none →
      buildRealPanes p em ts = none := by
  intro ts
  induction ts with
  | nil => intro viewId h; cases h
  | cons t rest ih =>
    intro viewId hmem hnone
    rcases List.mem_cons.mp hmem with h1 | h1
    · subst h1
      simp [buildRealPanes, hnone]
    · simp only [buildRealPanes]
      cases hv : p.views t with
      | none => rfl
      | some v => simp [ih viewId h1 hnone]

/-! ### Claim theorems -/

/-- C1: for every `tabs` sequence and every `activeView` value, if
`activeView` is set and present in `tabs` then the computed active index
is the (first-occurrence) position of `activeView` within `tabs`, and if
`activeView` is unset or not present in `tabs` then the computed active
index is `0`. -/
theorem computeActiveIndex_spec (tabs : List String) (activeView : Option String) :
    (∀ v, activeView = some v → v ∈ tabs →
      computeActiveIndex tabs activeView = (List.indexOf v tabs : Int))
    ∧ ((∀ v, activeView = some v → v ∉ tabs) →
      computeActiveIndex tabs activeView = 0) := by
  constructor
  · intro v hv hmem
    subst hv
    have h := jsIndexOf_eq_of_mem v tabs hmem
    simp only [computeActiveIndex, h]
    rw [if_neg (by omega : (List.indexOf v tabs : Int) ≠ -1)]
  · intro h
    cases hav : activeView with
    | none => rfl
    | some v =>
      have hnm : v ∉ tabs := h v hav
      have h1 := jsIndexOf_eq_neg_one_of_not_mem v tabs hnm
      simp [computeActiveIndex, h1]

/-- Witness for C1 at `tabs = ["a", "b"]`: present `activeView = "b"`
gives index 1, absent `activeView = "z"` gives index 0. -/
theorem computeActiveIndex_spec_witness :
    computeActiveIndex ["a", "b"] (some "b") = 1
    ∧ computeActiveIndex ["a", "b"] (some "z") = 0 := by
  constructor
  · have h := (computeActiveIndex_spec ["a", "b"] (some "b")).1 "b" rfl (by decide)
    rw [h]; decide
  · exact (computeActiveIndex_spec ["a", "b"] (some "z")).2
      (by intro v hv; injection hv with hv; subst hv; decide)

/-- C4: for every starting value of `editMode`, clicking the mode-toggle
button flips `editMode` exactly once and emits no callback calls (no
`updateViews`, no other parent callback). -/
theorem clickToggle_spec (editMode : Bool) :
    (clickToggle editMode).1 = !editMode ∧ (clickToggle editMode).2 = [] :=
  ⟨rfl, rfl⟩

/-- Witness for C4: toggling from `true` yields `false`, from `false`
yields `true`, with no effects. -/
theorem clickToggle_spec_witness :
    (clickToggle true).1 = false ∧ (clickToggle false).1 = true
    ∧ (clickToggle true).2 = [] := by
  exact ⟨(clickToggle_spec true).1, (clickToggle_spec false).1, (clickToggle_spec true).2⟩

/-- C6: a tab-change gesture at index `i` emits exactly one
`setActiveView` call; its argument is the tab id `tabs[i]` when that id
is truthy (in range and non-empty), and the raw index `i` when `tabs[i]`
is falsy — in particular whenever `i` is at or beyond `tabs.length`
(the synthetic "+" pane's index). -/
theorem tabChange_spec {V B : Type} (p : Props V B) (i : Nat) :
    tabChange p i = [Effect.setActiveView p.viewType (tabChangeArg p.tabs i)]
    ∧ (∀ s, p.tabs[i]? = some s → s ≠ "" → tabChangeArg p.tabs i = TabArg.id s)
    ∧ ((p.tabs[i]? = none ∨ p.tabs[i]? = some "") →
      tabChangeArg p.tabs i = TabArg.index i)
    ∧ (p.tabs.length ≤ i → tabChangeArg p.tabs i = TabArg.index i) := by
  refine ⟨rfl, ?_, ?_, ?_⟩
  · intro s hs hne
    simp [tabChangeArg, hs, hne]
  · intro h
    rcases h with h | h <;> simp [tabChangeArg, h]
  · intro h
    have hn : p.tabs[i]? = none := List.getElem?_eq_none h
    simp [tabChangeArg, hn]

/-- All entries of a successful real-pane construction are in
one-to-one order-preserving correspondence with the tab ids. -/
lemma buildRealPanes_forall2 {V B : Type} (p : Props V B) (em : Bool) :
    ∀ ts : List String, (∀ viewId ∈ ts, (p.views viewId).isSome = true) →
      ∃ l, buildRealPanes p em ts = some l ∧
        List.Forall₂ (fun viewId pane => ∀ v, p.views viewId = some v →
          pane = Pane.view viewId (v.name ++ " ") (p.renderView viewId em)) ts l := by
  intro ts
  induction ts with
  | nil => intro _; exact ⟨[], rfl, List.Forall₂.nil⟩
  | cons t rest ih =>
    intro h
    obtain ⟨v, hv⟩ := Option.isSome_iff_exists.mp (h t (List.mem_cons_self t rest))
    obtain ⟨l, hl, hfa⟩ := ih (fun viewId hid => h viewId (List.mem_cons_of_mem t hid))
    refine ⟨Pane.view t (v.name ++ " ") (p.renderView t em) :: l, ?_, ?_⟩
    · simp [buildRealPanes, hv, hl]
    · exact List.Forall₂.cons
        (fun v' hv' => by rw [hv] at hv'; injection hv' with hv'; rw [hv']) hfa

/-! ### Concrete props used by the witnesses -/

/-- One tab `"a"` named `"Alpha"`, no active view, not blank, not
modified. -/
def pWit : Props Unit Unit where
  tabs := ["a"]
  views := fun s => if s = "a" then some ⟨"Alpha"⟩ else none
  activeView := none
  blank := false
  viewType := "t"
  isModified := false
  viewState := ()
  renderView := fun _ _ => ()

/-- `pWit` with an empty-string tab id in front. -/
def pEmptyId : Props Unit Unit := { pWit with tabs := ["", "b"] }

/-- `pWit` with a tab id `"ghost"` that has no `views` entry. -/
def pMiss : Props Unit Unit := { pWit with tabs := ["a", "ghost"] }

/-- `pWit` with `blank := true`. -/
def pBlank : Props Unit Unit := { pWit with blank := true }

/-- Two tabs with named views and a pane body exposing the `renderView`
arguments. -/
def pTwo : Props Unit (String × Bool) where
  tabs := ["a", "b"]
  views := fun s =>
    if s = "a" then some ⟨"Alpha"⟩ else if s = "b" then some ⟨"Beta"⟩ else none
  activeView := some "b"
  blank := false
  viewType := "t"
  isModified := true
  viewState := ()
  renderView := fun viewId em => (viewId, em)

/-- No tabs, a string `viewState`, `isModified := true`. -/
def pSave : Props String Unit where
  tabs := []
  views := fun _ => none
  activeView := none
  blank := false
  viewType := "t"
  isModified := true
  viewState := "vs"
  renderView := fun _ _ => ()

/-! ### Remaining claim theorems -/

/-- Witness for C6 at `tabs = ["", "b"]`: index 1 holds the truthy id
`"b"`, index 5 is beyond the end and falls back to the raw index. -/
theorem tabChange_spec_witness :
    tabChange pEmptyId 1 = [Effect.setActiveView "t" (TabArg.id "b")]
    ∧ tabChangeArg pEmptyId.tabs 5 = TabArg.index 5 := by
  constructor
  · have h := tabChange_spec (V := Unit) (B := Unit) pEmptyId 1
    rw [h.1, h.2.1 "b" rfl (by decide)]
    rfl
  · exact (tabChange_spec (V := Unit) (B := Unit) pEmptyId 5).2.2.2 (by decide)

/-- C10: a tab-change gesture at an in-range index whose tab id is the
empty string (a falsy string) sends the raw numeric index to
`setActiveView`, not the id: the `||` fallback is a truthiness test, so
every falsy id falls back, not only `undefined`. -/
theorem tabChange_falsy_id_spec {V B : Type} (p : Props V B) (i : Nat)
    (h : p.tabs[i]? = some "") :
    tabChange p i = [Effect.setActiveView p.viewType (TabArg.index i)] := by
  simp [tabChange, tabChangeArg, h]

/-- Witness for C10: the in-range index 0 of `["", "b"]` holds the empty
string, and the emitted call carries the index. -/
theorem tabChange_falsy_id_witness :
    tabChange pEmptyId 0 = [Effect.setActiveView "t" (TabArg.index 0)] :=
  tabChange_falsy_id_spec pEmptyId 0 rfl

/-- C9: rendering with any tab id missing from `views` reaches the
unguarded `.name` access on an undefined lookup, so the whole render
crashes (`none`); the component has no internal recovery for this case. -/
theorem render_missing_view_crash {V B : Type} (p : Props V B) (editMode : Bool)
    (viewId : String) (hmem : viewId ∈ p.tabs) (hmiss : p.views viewId = none) :
    render p editMode = none := by
  have h := buildRealPanes_eq_none p editMode p.tabs viewId hmem hmiss
  simp [render, panes, realPanes, h]

/-- Witness for C9: with tabs `["a", "ghost"]` and no view for
`"ghost"`, rendering crashes. -/
theorem render_missing_view_crash_witness :
    render pMiss false = none :=
  render_missing_view_crash pMiss false "ghost" (by decide) rfl

/-- C8: when every tab id has a `views` entry, real-pane construction
succeeds and produces one pane per tab id, in `tabs` order, whose menu
label is the view's name followed by a single trailing space and whose
body is `renderView viewId editMode`. -/
theorem realPanes_shape_spec {V B : Type} (p : Props V B) (editMode : Bool)
    (h : ∀ viewId ∈ p.tabs, (p.views viewId).isSome = true) :
    ∃ l, realPanes p editMode = some l ∧
      List.Forall₂ (fun viewId pane => ∀ v, p.views viewId = some v →
        pane = Pane.view viewId (v.name ++ " ") (p.renderView viewId editMode))
        p.tabs l :=
  buildRealPanes_forall2 p editMode p.tabs h

/-- Witness for C8 on `pTwo`: construction succeeds, and evaluates to the
two expected panes in order. -/
theorem realPanes_shape_witness :
    (realPanes pTwo true).isSome = true
    ∧ realPanes pTwo true
      = some [Pane.view "a" "Alpha " ("a", true), Pane.view "b" "Beta " ("b", true)] := by
  constructor
  · obtain ⟨l, hl, -⟩ := realPanes_shape_spec pTwo true (by decide)
    rw [hl]; rfl
  · rfl

/-- C5: given a successful render, the tab strip is omitted exactly when
`blank` is true and `editMode` is false; in every other combination of
`blank` and `editMode` it is rendered. -/
theorem tabStrip_blank_spec {V B : Type} (p : Props V B) (editMode : Bool)
    (r : Rendered B) (h : render p editMode = some r) :
    r.tabStrip = none ↔ (p.blank = true ∧ editMode = false) := by
  unfold render at h
  obtain ⟨ps, hps, hr⟩ := Option.map_eq_some'.mp h
  subst hr
  cases hb : p.blank <;> cases editMode <;> simp [hb]

/-- Witness for C5: `pBlank` (blank, not editing) renders no tab strip;
`pWit` (not blank, not editing) renders one. -/
theorem tabStrip_blank_witness :
    (Rendered.mk (none : Option Bool) "Edit Charts" "configure"
      (none : Option (TabStrip Unit))).tabStrip = none
    ∧ (Rendered.mk (none : Option Bool) "Edit Charts" "configure"
      (some (TabStrip.mk [Pane.view "a" "Alpha " ()] 0))).tabStrip ≠ none := by
  have h1 : render pBlank false
      = some (Rendered.mk none "Edit Charts" "configure" none) := rfl
  have h2 : render pWit false
      = some (Rendered.mk none "Edit Charts" "configure"
          (some (TabStrip.mk [Pane.view "a" "Alpha " ()] 0))) := rfl
  constructor
  · exact (tabStrip_blank_spec pBlank false _ h1).mpr ⟨rfl, rfl⟩
  · intro hn
    exact absurd ((tabStrip_blank_spec pWit false _ h2).mp hn).1 (by decide)

/-- C2: given a successful render, edit mode appends exactly one
synthetic "+" pane after all real panes and renders the Save button;
outside edit mode no "+" pane is produced and the Save button is
absent. -/
theorem panes_editMode_spec {V B : Type} (p : Props V B) (editMode : Bool)
    (r : Rendered B) (h : render p editMode = some r) :
    (editMode = true →
      (∃ real, realPanes p true = some real ∧ Pane.addTab ∉ real
        ∧ panes p true = some (real ++ [Pane.addTab]))
      ∧ r.saveDisabled.isSome = true)
    ∧ (editMode = false →
      (∀ l, panes p false = some l → Pane.addTab ∉ l)
      ∧ r.saveDisabled = none) := by
  unfold render at h
  obtain ⟨ps, hps, hr⟩ := Option.map_eq_some'.mp h
  unfold panes at hps
  obtain ⟨real, hreal, hps2⟩ := Option.map_eq_some'.mp hps
  subst hr
  have hnot : Pane.addTab ∉ real :=
    addTab_not_mem_buildRealPanes p editMode p.tabs real hreal
  constructor
  · rintro rfl
    exact ⟨⟨real, hreal, hnot, by simp [panes, realPanes] at hreal ⊢; simp [hreal]⟩, by simp⟩
  · rintro rfl
    refine ⟨?_, by simp⟩
    intro l hl
    simp [panes, realPanes] at hreal hl
    rw [hreal] at hl
    simp at hl
    rw [← hl]
    exact hnot

/-- Witness for C2 on `pWit` in edit mode: the pane list is the one real
pane followed by the "+" pane, and the Save button is rendered. -/
theorem panes_editMode_witness :
    panes pWit true = some [Pane.view "a" "Alpha " (), Pane.addTab]
    ∧ (Rendered.mk (some true) "View Charts" "unhide"
      (some (TabStrip.mk [Pane.view "a" "Alpha " (), Pane.addTab] 0))).saveDisabled.isSome
        = true := by
  have h : render pWit true
      = some (Rendered.mk (some true) "View Charts" "unhide"
          (some (TabStrip.mk [Pane.view "a" "Alpha " (), Pane.addTab] 0))) := rfl
  exact ⟨rfl, ((panes_editMode_spec pWit true _ h).1 rfl).2⟩

/-- C3: clicking Save with `isModified` true emits exactly one
`updateViews` call carrying the serialized `viewState` and resets
`editMode` to `false`; with `isModified` false the rendered button is
disabled, so a click leaves `editMode` unchanged and emits nothing. -/
theorem clickSave_spec {V B : Type} (stringify : V → String) (p : Props V B)
    (editMode : Bool) :
    (p.isModified = true →
      clickSave stringify p editMode
        = (false, [Effect.updateViews (stringify p.viewState)]))
    ∧ (p.isModified = false →
      clickSave stringify p editMode = (editMode, [])
      ∧ ∀ r, render p true = some r → r.saveDisabled = some true) := by
  constructor
  · intro h
    simp [clickSave, h, saveHandler]
  · intro h
    refine ⟨by simp [clickSave, h], ?_⟩
    intro r hr
    unfold render at hr
    obtain ⟨ps, hps, hr2⟩ := Option.map_eq_some'.mp hr
    subst hr2
    simp [h]

/-- Witness for C3: with `pSave` (modified) the click saves and leaves
edit mode; with `isModified := false` the click changes nothing. -/
theorem clickSave_spec_witness :
    clickSave id pSave true = (false, [Effect.updateViews "vs"])
    ∧ clickSave id ({ pSave with isModified := false } : Props String Unit) true
      = (true, []) := by
  constructor
  · exact (clickSave_spec id pSave true).1 rfl
  · exact ((clickSave_spec id ({ pSave with isModified := false }) true).2 rfl).1

/-- C7: the "+" menu item's click handler invokes `addView` exactly once
with `(viewType, "New View", [])`, and the "+" pane is present in the
pane list exactly when edit mode is on. -/
theorem clickAdd_spec {V B : Type} (p : Props V B) (editMode : Bool)
    (l : List (Pane B)) (h : panes p editMode = some l) :
    clickAdd p = [Effect.addView p.viewType "New View" []]
    ∧ (Pane.addTab ∈ l ↔ editMode = true) := by
  refine ⟨rfl, ?_⟩
  unfold panes at h
  obtain ⟨real, hreal, hl⟩ := Option.map_eq_some'.mp h
  have hnot : Pane.addTab ∉ real :=
    addTab_not_mem_buildRealPanes p editMode p.tabs real hreal
  cases editMode with
  | true =>
    simp only [if_true] at hl
    subst hl
    simp
  | false =>
    simp only [if_neg Bool.false_ne_true] at hl
    subst hl
    simp [hnot]

/-- Witness for C7 on `pWit`: the emitted call and the "+" pane presence
in edit mode, absence outside it. -/
theorem clickAdd_spec_witness :
    clickAdd pWit = [Effect.addView "t" "New View" []]
    ∧ Pane.addTab ∈ [Pane.view "a" "Alpha " (), Pane.addTab]
    ∧ Pane.addTab ∉ [Pane.view "a" "Alpha " ()] := by
  have h1 := clickAdd_spec pWit true [Pane.view "a" "Alpha " (), Pane.addTab] rfl
  have h2 := clickAdd_spec pWit false [Pane.view "a" "Alpha " ()] rfl
  exact ⟨h1.1, h1.2.mpr rfl, fun hm => absurd (h2.2.mp hm) (by decide)⟩

end TabbedViews
